import Mathlib

/-
  Verification development for the media-intelligence dashboard
  (source: src/streamlit3app.py).

  The development shallowly embeds the two reimplementable cores of the
  program: the data-cleaning and aggregation pipeline, and the insight
  requester built around generate_insights_from_gemini.  Strings are
  modelled as lists of characters; the Python string methods used by the
  source (strip, lower, replace, split, startswith) are given executable
  models below, and the pandas calls are modelled row by row.
-/

/-! ## Python string primitives used by the source -/

/-- Characters removed by the Python method strip at either end of a string
(the ASCII whitespace characters). -/
def isPySpace (c : Char) : Bool :=
  c = ' ' || c = '\t' || c = '\n' || c = '\r' || c = '\x0b' || c = '\x0c'

/-- Model of the Python method strip: remove whitespace from both ends. -/
def pyStrip (l : List Char) : List Char :=
  ((l.dropWhile isPySpace).reverse.dropWhile isPySpace).reverse

/-- Model of the Python method lower on ASCII letters: map each character to
its lower-case form. -/
def pyLower (l : List Char) : List Char :=
  l.map Char.toLower

/-- Fuel-indexed worker for pyReplace.  Each step consumes at least one
character of the input and exactly one unit of fuel, so fuel equal to the
length of the input suffices. -/
def pyReplaceAux (old new : List Char) : Nat → List Char → List Char
  | _, [] => []
  | 0, s => s
  | fuel + 1, c :: rest =>
    if !old.isEmpty && old.isPrefixOf (c :: rest) then
      new ++ pyReplaceAux old new fuel (List.drop old.length (c :: rest))
    else
      c :: pyReplaceAux old new fuel rest

/-- Model of the Python method replace: replace every non-overlapping
occurrence of old by new, scanning left to right. -/
def pyReplace (old new s : List Char) : List Char :=
  pyReplaceAux old new s.length s

/-- Model of the Python method split with a one-character separator: split
into the (possibly empty) segments between separator occurrences. -/
def pySplit (sep : Char) : List Char → List (List Char)
  | [] => [[]]
  | c :: rest =>
    if c = sep then [] :: pySplit sep rest
    else
      match pySplit sep rest with
      | [] => [[c]]
      | l :: ls => (c :: l) :: ls

/-! ## Column-name normalization (source line 63) -/

/-- The misspelt platform header that the source renames. -/
def plateformChars : List Char := "plateform".data

/-- The replacement for the misspelt platform header. -/
def platformChars : List Char := "platform".data

/-- The underscored media-type header that the source renames. -/
def mediaUnderChars : List Char := "media_type".data

/-- The camel-cased replacement for the media-type header. -/
def mediaCamelChars : List Char := "mediaType".data

/-- Model of the header transformation applied to every column name:
col.strip().lower().replace(space, underscore).replace(plateform,
platform).replace(media_type, mediaType), exactly as on source line 63. -/
def normalizeCol (l : List Char) : List Char :=
  pyReplace mediaUnderChars mediaCamelChars
    (pyReplace plateformChars platformChars
      (pyReplace [' '] ['_'] (pyLower (pyStrip l))))

/-- String-level wrapper for normalizeCol. -/
def normalizeColumn (s : String) : String :=
  ⟨normalizeCol s.data⟩

example : normalizeColumn "Media Type" = "mediaType" := by decide
example : normalizeColumn (normalizeColumn "Media Type") = "mediatype" := by decide
example : normalizeColumn "My plateform" = "my_platform" := by decide
example : normalizeColumn " Date " = "date" := by decide

/-! ## Data model of the upload and the cleaning pipeline
(source lines 46 to 77) -/

/-- One engagements cell as pandas sees it: a missing value, a cell that
to_numeric parses (num carries the numeric value truncated toward zero, as
astype int does afterwards), or text that to_numeric with coerce turns into
NaN. -/
inductive NumCell where
  | na : NumCell
  | num : Int → NumCell
  | text : String → NumCell
deriving DecidableEq, Repr

/-- One date cell as pandas sees it: a missing value, a value that the
lenient parser of to_datetime accepts as the calendar date y-m-d, or a
value it cannot parse (coerced to NaT). -/
inductive DateCell where
  | na : DateCell
  | valid : Nat → Nat → Nat → DateCell
  | invalid : String → DateCell
deriving DecidableEq, Repr

/-- One row of the uploaded table, keyed by the canonical column names that
the header normalization produces. -/
structure RawRow where
  date : DateCell
  platform : String
  sentiment : String
  location : String
  engagements : NumCell
  mediaType : String
deriving DecidableEq, Repr

/-- The uploaded table after header normalization.  hasDateCol and
hasEngCol record whether the normalized header list contains the columns
date and engagements, since the source guards both cleaning steps on that
membership test. -/
structure RawTable where
  hasDateCol : Bool
  hasEngCol : Bool
  rows : List RawRow
deriving DecidableEq, Repr

/-- Model of pd.to_numeric with errors coerce followed by truncation to an
integer: a numeric cell keeps its value, everything else becomes NaN
(none). -/
def toNumericCoerce : NumCell → Option Int
  | .num n => some n
  | .na => none
  | .text _ => none

/-- Model of the engagements coercion on source line 73:
to_numeric(coerce).fillna(0).astype(int). -/
def cleanEngagements (c : NumCell) : Int :=
  (toNumericCoerce c).getD 0

/-- Model of pd.to_datetime with errors coerce: the parsed date, or none
for NaT. -/
def parseDate : DateCell → Option (Nat × Nat × Nat)
  | .valid y m d => some (y, m, d)
  | .na => none
  | .invalid _ => none

/-- Zero-pad a number to two digits, as strftime does for month and day. -/
def pad2 (n : Nat) : String :=
  if n < 10 then "0" ++ toString n else toString n

/-- Zero-pad a number to four digits, as strftime does for the year. -/
def pad4 (n : Nat) : String :=
  if n < 10 then "000" ++ toString n
  else if n < 100 then "00" ++ toString n
  else if n < 1000 then "0" ++ toString n
  else toString n

/-- Model of strftime with the format Y-m-d on source line 69. -/
def formatDate (y m d : Nat) : String :=
  pad4 y ++ "-" ++ pad2 m ++ "-" ++ pad2 d

/-- One row of the cleaned table.  The date field is none exactly when the
upload had no date column, in which case the source leaves the frame
without that column. -/
structure CleanRow where
  date : Option String
  platform : String
  sentiment : String
  location : String
  engagements : Int
  mediaType : String
deriving DecidableEq, Repr

/-- Clean a single row: drop it when the table has a date column whose
value does not parse, otherwise normalize the date and coerce the
engagements (synthesizing 0 when the column is absent, source line 75). -/
def cleanRow (hasDate hasEng : Bool) (r : RawRow) : Option CleanRow :=
  let eng : Int := if hasEng then cleanEngagements r.engagements else 0
  if hasDate then
    match parseDate r.date with
    | none => none
    | some (y, m, d) =>
      some ⟨some (formatDate y m d), r.platform, r.sentiment, r.location, eng, r.mediaType⟩
  else
    some ⟨none, r.platform, r.sentiment, r.location, eng, r.mediaType⟩

/-- Model of the whole cleaning step (source lines 63 to 77) on the
normalized table. -/
def clean (t : RawTable) : List CleanRow :=
  t.rows.filterMap (cleanRow t.hasDateCol t.hasEngCol)

/-! ## Aggregate tables (source lines 148, 184, 208, 234, 270 and 271) -/

/-- Relation ordering key-total pairs by descending total, the order
nlargest uses; ties compare as equal so a stable sort keeps the order of
the summed table. -/
def byTotalDesc (a b : String × Int) : Prop := b.2 ≤ a.2

instance : DecidableRel byTotalDesc := fun a b => inferInstanceAs (Decidable (b.2 ≤ a.2))

instance : IsTotal (String × Int) byTotalDesc :=
  ⟨fun a b => le_total b.2 a.2⟩

instance : IsTrans (String × Int) byTotalDesc :=
  ⟨fun _ _ _ h1 h2 => le_trans h2 h1⟩

/-- Lexicographic comparison of character lists by character code, the
order pandas uses for sorted group-by keys. -/
def lexLe : List Char → List Char → Bool
  | [], _ => true
  | _ :: _, [] => false
  | c :: cs, d :: ds =>
    if c.toNat < d.toNat then true
    else if d.toNat < c.toNat then false
    else lexLe cs ds

/-- Relation ordering strings as the sorted group-by keys of pandas. -/
def byKeyAsc (a b : String) : Prop := lexLe a.data b.data = true

instance : DecidableRel byKeyAsc := fun a b =>
  inferInstanceAs (Decidable (lexLe a.data b.data = true))

theorem lexLe_total : ∀ a b : List Char, lexLe a b = true ∨ lexLe b a = true := by
  intro a
  induction a with
  | nil => intro b; left; rfl
  | cons c cs ih =>
    intro b
    cases b with
    | nil => right; rfl
    | cons d ds =>
      by_cases h1 : c.toNat < d.toNat
      · left; simp [lexLe, h1]
      · by_cases h2 : d.toNat < c.toNat
        · right; simp [lexLe, h2]
        · rcases ih ds with h | h
          · left; simp [lexLe, h1, h2, h]
          · right; simp [lexLe, h1, h2, h]

theorem lexLe_trans :
    ∀ a b c : List Char, lexLe a b = true → lexLe b c = true → lexLe a c = true := by
  intro a
  induction a with
  | nil => intro b c _ _; rfl
  | cons x xs ih =>
    intro b c hab hbc
    cases b with
    | nil => simp [lexLe] at hab
    | cons y ys =>
      cases c with
      | nil => simp [lexLe] at hbc
      | cons z zs =>
        simp only [lexLe] at hab hbc ⊢
        by_cases hxy : x.toNat < y.toNat
        · by_cases hyz : y.toNat < z.toNat
          · have : x.toNat < z.toNat := Nat.lt_trans hxy hyz
            simp [this]
          · by_cases hzy : z.toNat < y.toNat
            · simp [hyz, hzy] at hbc
            · have hyzeq : y.toNat = z.toNat := Nat.le_antisymm (Nat.le_of_not_lt hzy) (Nat.le_of_not_lt hyz)
              have : x.toNat < z.toNat := hyzeq ▸ hxy
              simp [this]
        · by_cases hyx : y.toNat < x.toNat
          · simp [hxy, hyx] at hab
          · have hxyeq : x.toNat = y.toNat := Nat.le_antisymm (Nat.le_of_not_lt hyx) (Nat.le_of_not_lt hxy)
            by_cases hyz : y.toNat < z.toNat
            · have : x.toNat < z.toNat := hxyeq ▸ hyz
              simp [this]
            · by_cases hzy : z.toNat < y.toNat
              · simp [hyz, hzy] at hbc
              · have hyzeq : y.toNat = z.toNat := Nat.le_antisymm (Nat.le_of_not_lt hzy) (Nat.le_of_not_lt hyz)
                have hxz : ¬ x.toNat < z.toNat := by omega
                have hzx : ¬ z.toNat < x.toNat := by omega
                rw [if_neg hxy, if_neg hyx] at hab
                rw [if_neg hyz, if_neg hzy] at hbc
                rw [if_neg hxz, if_neg hzx]
                exact ih ys zs hab hbc

instance : IsTotal String byKeyAsc := ⟨fun a b => lexLe_total a.data b.data⟩

instance : IsTrans String byKeyAsc := ⟨fun a b c => lexLe_trans a.data b.data c.data⟩

/-- The distinct values of a key across the cleaned rows, in ascending
order, as the groupby of pandas produces with its default sorting. -/
def groupKeys (key : CleanRow → String) (rows : List CleanRow) : List String :=
  List.insertionSort byKeyAsc ((rows.map key).dedup)

/-- Model of groupby(key)[engagements].sum().reset_index(): one (key,
total) pair per distinct key value, keys in ascending order. -/
def groupBySum (key : CleanRow → String) (rows : List CleanRow) : List (String × Int) :=
  (groupKeys key rows).map fun k =>
    (k, ((rows.filter fun r => key r = k).map (·.engagements)).sum)

/-- The engagement-by-platform summed table of source line 208 (before the
chart-only ascending re-sort). -/
def engagementByPlatform (rows : List CleanRow) : List (String × Int) :=
  groupBySum (·.platform) rows

/-- The per-location summed table of source line 270. -/
def locationEngagement (rows : List CleanRow) : List (String × Int) :=
  groupBySum (·.location) rows

/-- Model of nlargest(5, engagements) on source line 271: sort the summed
table by descending total with a stable sort and keep the first five
entries. -/
def top5Locations (rows : List CleanRow) : List (String × Int) :=
  (List.insertionSort byTotalDesc (locationEngagement rows)).take 5

/-! ## Insight requester (source lines 86 to 138) -/

/-- One entry of the parts array of the first candidate.  The text field
models the string under the text key; a response lacking that key is
covered by the unexpectedError outcome. -/
structure RespPart where
  text : String
deriving DecidableEq, Repr

/-- The content object of a candidate; the parts key may be absent. -/
structure RespContent where
  parts : Option (List RespPart)
deriving DecidableEq, Repr

/-- One candidate of the response body; the content key may be absent. -/
structure RespCandidate where
  content : Option RespContent
deriving DecidableEq, Repr

/-- Outcome of calling response.json() on a success response: either the
body is not JSON (json.JSONDecodeError) or it parses, with the candidates
key possibly absent. -/
inductive BodyParse where
  | parseError : BodyParse
  | parsed : Option (List RespCandidate) → BodyParse
deriving DecidableEq, Repr

/-- What the environment does to the single outbound requests.post call:
raise a requests exception, raise some other exception somewhere in the
try block, or deliver an HTTP response with a status code and a body. -/
inductive ApiOutcome where
  | transportError : ApiOutcome
  | unexpectedError : ApiOutcome
  | httpResponse : Nat → BodyParse → ApiOutcome
deriving DecidableEq, Repr

/-- Model of response.ok in requests: true exactly when the status code is
below 400. -/
def respOk (status : Nat) : Bool := status < 400

/-- The bullet markers recognized on source line 123. -/
def bulletMarkers : List Char := ['-', '*', '•']

/-- Model of line.strip().startswith((dash, star, bullet)): true when the
stripped line is non-empty and begins with one of the three markers. -/
def startsWithBullet (l : List Char) : Bool :=
  match l with
  | [] => false
  | c :: _ => c ∈ bulletMarkers

/-- Model of the insight extraction on source lines 121 to 126: split the
text into lines, strip each, keep the lines that begin with a bullet
marker, fall back to all non-empty stripped lines when none do, and keep
at most the first three. -/
def extractInsights (text : List Char) : List (List Char) :=
  let stripped := (pySplit '\n' text).map pyStrip
  let bullets := stripped.filter startsWithBullet
  let insights := if bullets.isEmpty then stripped.filter (fun l => !l.isEmpty) else bullets
  insights.take 3

/-- The message returned when the credential is missing (source line 93). -/
def keyMissingMsg : String :=
  "Failed to generate insights: Gemini API Key is missing. Check your Canvas environment settings."

/-- The first message returned on status 401 (source line 111). -/
def authErrMsg1 : String :=
  "Failed to generate insights: Authorization error (Status 401)."

/-- The second message returned on status 401 (source line 112). -/
def authErrMsg2 : String :=
  "Please ensure your API Key for the Gemini API is correctly configured in your Canvas environment settings."

/-- The message returned on any other non-success status (source line
114). -/
def apiErrMsg (status : Nat) : String :=
  "Failed to generate insights: API returned an error (" ++ toString status ++ ")."

/-- The message returned when the response shape is unexpected (source
line 128). -/
def shapeErrMsg : String :=
  "Failed to generate insights: Unexpected API response structure."

/-- The message returned on a requests exception (source line 132). -/
def transportErrMsg : String :=
  "Error generating insights: Network or API request failed. Please check your internet connection or API endpoint."

/-- The message returned on a JSON decoding error (source line 135). -/
def jsonErrMsg : String :=
  "Error generating insights: Could not parse API response."

/-- The message returned by the final generic handler (source line 138). -/
def unexpectedErrMsg : String :=
  "An unexpected error occurred while generating insights."

/-- Model of the truthiness chain on source lines 118 to 121: the text of
the first part of the first candidate, or none when any link of the chain
is absent or empty. -/
def firstCandidateText : BodyParse → Option String
  | .parsed (some (c0 :: _)) =>
    match c0.content with
    | some ct =>
      match ct.parts with
      | some (p0 :: _) => some p0.text
      | some [] => none
      | none => none
    | none => none
  | .parsed (some []) => none
  | .parsed none => none
  | .parseError => none

/-- Model of generate_insights_from_gemini.  The first component records
whether the requests.post call was reached; the second is the returned
list of insight strings.  apiKey is the value of os.getenv with its empty
default, and outcome is what the network and response parsing deliver. -/
def generate_insights_from_gemini (apiKey : String) (outcome : ApiOutcome) :
    Bool × List String :=
  if apiKey = "" then
    (false, [keyMissingMsg])
  else
    (true,
      match outcome with
      | .transportError => [transportErrMsg]
      | .unexpectedError => [unexpectedErrMsg]
      | .httpResponse status body =>
        if respOk status then
          match body with
          | .parseError => [jsonErrMsg]
          | .parsed cands =>
            match firstCandidateText (.parsed cands) with
            | some text => (extractInsights text.data).map fun l => String.mk l
            | none => [shapeErrMsg]
        else if status = 401 then [authErrMsg1, authErrMsg2]
        else [apiErrMsg status])

/-- Abbreviation for a success outcome whose first candidate carries the
given text. -/
def successOutcome (status : Nat) (text : String) : ApiOutcome :=
  .httpResponse status (.parsed (some [⟨some ⟨some [⟨text⟩]⟩⟩]))

example :
    (generate_insights_from_gemini "k" (successOutcome 200 "- a\n- b\n- c")).2 =
      ["- a", "- b", "- c"] := by decide
example : (generate_insights_from_gemini "k" (successOutcome 200 "")).2 = [] := by decide
example : (generate_insights_from_gemini "k" (.httpResponse 401 .parseError)).2 =
    [authErrMsg1, authErrMsg2] := by decide
example : (generate_insights_from_gemini "" .transportError) = (false, [keyMissingMsg]) := by decide

/-! ## Concrete tables used by witnesses and counterexamples -/

/-- The upload of Example 1 of the spec: one parseable and one unparseable
date. -/
def exTable1 : RawTable :=
  { hasDateCol := true, hasEngCol := true,
    rows := [
      ⟨.valid 2024 1 1, "Twitter", "Positive", "NY", .num 10, "Video"⟩,
      ⟨.invalid "not-a-date", "FB", "Negative", "LA", .num 5, "Image"⟩ ] }

/-- A table with six distinct locations, used for the top-five claims. -/
def exTable8 : RawTable :=
  { hasDateCol := false, hasEngCol := true,
    rows := [
      ⟨.na, "T", "P", "AA", .num 1, "V"⟩,
      ⟨.na, "T", "P", "BB", .num 7, "V"⟩,
      ⟨.na, "T", "P", "CC", .num 3, "V"⟩,
      ⟨.na, "T", "P", "DD", .num 9, "V"⟩,
      ⟨.na, "T", "P", "EE", .num 5, "V"⟩,
      ⟨.na, "T", "P", "FF", .num 2, "V"⟩ ] }

/-- A table whose single row carries a negative numeric engagements cell,
as the upload value -5 would after to_numeric. -/
def exTableNeg : RawTable :=
  { hasDateCol := false, hasEngCol := true,
    rows := [⟨.na, "T", "P", "L", .num (-5), "V"⟩] }

/-! ## Helper lemmas about pyReplace -/

theorem occ_cons {t l : List Char} {a : Char} (h : t <:+: a :: l) :
    t <+: a :: l ∨ t <:+: l := by
  obtain ⟨s, u, e⟩ := h
  cases s with
  | nil =>
    left
    exact ⟨u, by simpa using e⟩
  | cons b s2 =>
    right
    refine ⟨s2, u, ?_⟩
    have e2 : b = a ∧ s2 ++ t ++ u = l := by simpa using e
    exact e2.2

theorem pyReplaceAux_fire (old new : List Char) (n : Nat) (c : Char) (rest : List Char)
    (hfire : (!old.isEmpty && old.isPrefixOf (c :: rest)) = true) :
    pyReplaceAux old new (n + 1) (c :: rest) =
      new ++ pyReplaceAux old new n (List.drop old.length (c :: rest)) := by
  simp only [pyReplaceAux, hfire, if_true]

theorem pyReplaceAux_skip (old new : List Char) (n : Nat) (c : Char) (rest : List Char)
    (hfire : (!old.isEmpty && old.isPrefixOf (c :: rest)) = false) :
    pyReplaceAux old new (n + 1) (c :: rest) = c :: pyReplaceAux old new n rest := by
  simp only [pyReplaceAux, hfire]
  simp

theorem fire_facts (old : List Char) (c : Char) (rest : List Char)
    (hfire : (!old.isEmpty && old.isPrefixOf (c :: rest)) = true) :
    1 ≤ old.length ∧ old.length ≤ (c :: rest).length := by
  have hparts : (!old.isEmpty) = true ∧ old.isPrefixOf (c :: rest) = true := by
    simpa [Bool.and_eq_true] using hfire
  have hpre : old <+: c :: rest := List.isPrefixOf_iff_prefix.1 hparts.2
  constructor
  · cases old with
    | nil => simp at hparts
    | cons _ _ => simp
  · exact hpre.length_le

theorem pyReplaceAux_length_le (old new : List Char) (hle : new.length ≤ old.length) :
    ∀ fuel s, s.length ≤ fuel → (pyReplaceAux old new fuel s).length ≤ s.length := by
  intro fuel
  induction fuel with
  | zero =>
    intro s hs
    cases s with
    | nil => simp [pyReplaceAux]
    | cons c r => simp at hs
  | succ n ih =>
    intro s hs
    cases s with
    | nil => simp [pyReplaceAux]
    | cons c rest =>
      by_cases hfire : (!old.isEmpty && old.isPrefixOf (c :: rest)) = true
      · obtain ⟨holdlen, holdle⟩ := fire_facts old c rest hfire
        have hdlen : (List.drop old.length (c :: rest)).length = (c :: rest).length - old.length := by
          simp
        have hrec := ih (List.drop old.length (c :: rest)) (by
          rw [hdlen]
          simp only [List.length_cons] at hs ⊢
          omega)
        rw [pyReplaceAux_fire old new n c rest hfire]
        rw [hdlen] at hrec
        simp only [List.length_append]
        omega
      · rw [pyReplaceAux_skip old new n c rest (by
          simp only [Bool.not_eq_true] at hfire
          exact hfire)]
        have hrec := ih rest (by simp only [List.length_cons] at hs; omega)
        simp only [List.length_cons]
        omega

theorem pyReplaceAux_length_lt (old new : List Char)
    (hne : old ≠ []) (hlt : new.length < old.length) :
    ∀ fuel s, s.length ≤ fuel → old <:+: s →
      (pyReplaceAux old new fuel s).length < s.length := by
  intro fuel
  induction fuel with
  | zero =>
    intro s hs hocc
    cases s with
    | nil =>
      obtain ⟨p, q, e⟩ := hocc
      rcases List.append_eq_nil.1 e with ⟨e1, e2⟩
      exact absurd (List.append_eq_nil.1 e1).2 hne
    | cons c r => simp at hs
  | succ n ih =>
    intro s hs hocc
    cases s with
    | nil =>
      obtain ⟨p, q, e⟩ := hocc
      rcases List.append_eq_nil.1 e with ⟨e1, e2⟩
      exact absurd (List.append_eq_nil.1 e1).2 hne
    | cons c rest =>
      by_cases hfire : (!old.isEmpty && old.isPrefixOf (c :: rest)) = true
      · obtain ⟨holdlen, holdle⟩ := fire_facts old c rest hfire
        have hdlen : (List.drop old.length (c :: rest)).length = (c :: rest).length - old.length := by
          simp
        have hrec := pyReplaceAux_length_le old new (le_of_lt hlt) n
          (List.drop old.length (c :: rest)) (by
            rw [hdlen]
            simp only [List.length_cons] at hs ⊢
            omega)
        rw [pyReplaceAux_fire old new n c rest hfire]
        rw [hdlen] at hrec
        simp only [List.length_append]
        omega
      · have hnofirestep : ¬ old <+: c :: rest := by
          intro hp
          apply hfire
          refine (Bool.and_eq_true _ _) ▸ ⟨?_, List.isPrefixOf_iff_prefix.2 hp⟩
          cases old with
          | nil => exact absurd rfl hne
          | cons _ _ => simp
        have hocc2 : old <:+: rest := by
          rcases occ_cons hocc with hp | hi
          · exact absurd hp hnofirestep
          · exact hi
        rw [pyReplaceAux_skip old new n c rest (by
          simp only [Bool.not_eq_true] at hfire
          exact hfire)]
        have hrec := ih rest (by simp only [List.length_cons] at hs; omega) hocc2
        simp only [List.length_cons]
        omega

theorem pyReplace_length_le (old new s : List Char) (hle : new.length ≤ old.length) :
    (pyReplace old new s).length ≤ s.length :=
  pyReplaceAux_length_le old new hle s.length s le_rfl

theorem pyReplace_length_lt (old new s : List Char)
    (hne : old ≠ []) (hlt : new.length < old.length) (hocc : old <:+: s) :
    (pyReplace old new s).length < s.length :=
  pyReplaceAux_length_lt old new hne hlt s.length s le_rfl hocc


/-! ## Helper lemmas about the cleaning pipeline -/

theorem cleanRow_skip_date {he : Bool} (raw : RawRow) :
    cleanRow false he raw =
      some ⟨none, raw.platform, raw.sentiment, raw.location,
        (if he then cleanEngagements raw.engagements else 0), raw.mediaType⟩ := by
  simp [cleanRow]

theorem cleanRow_engagements {hd he : Bool} {raw : RawRow} {r : CleanRow}
    (h : cleanRow hd he raw = some r) :
    r.engagements = if he then cleanEngagements raw.engagements else 0 := by
  cases hd with
  | false =>
    rw [cleanRow_skip_date raw] at h
    injection h with h2
    rw [← h2]
  | true =>
    simp only [cleanRow, if_true] at h
    cases hp : parseDate raw.date with
    | none => rw [hp] at h; simp at h
    | some ymd =>
      obtain ⟨y, m, d⟩ := ymd
      rw [hp] at h
      simp only [Option.some.injEq] at h
      rw [← h]

theorem cleanRow_date_shape {he : Bool} {raw : RawRow} {r : CleanRow}
    (h : cleanRow true he raw = some r) :
    ∃ y m d, parseDate raw.date = some (y, m, d) ∧ r.date = some (formatDate y m d) := by
  simp only [cleanRow, if_true] at h
  cases hp : parseDate raw.date with
  | none => rw [hp] at h; simp at h
  | some ymd =>
    obtain ⟨y, m, d⟩ := ymd
    rw [hp] at h
    simp only [Option.some.injEq] at h
    exact ⟨y, m, d, rfl, by rw [← h]⟩

theorem cleanRow_isSome_date {he : Bool} (raw : RawRow) :
    (cleanRow true he raw).isSome = (parseDate raw.date).isSome := by
  simp only [cleanRow, if_true]
  cases hp : parseDate raw.date with
  | none => simp
  | some ymd =>
    obtain ⟨y, m, d⟩ := ymd
    simp

theorem clean_length_date (he : Bool) (rows : List RawRow) :
    (rows.filterMap (cleanRow true he)).length =
      rows.countP (fun raw => (parseDate raw.date).isSome) := by
  induction rows with
  | nil => rfl
  | cons a l ih =>
    rw [List.filterMap_cons, List.countP_cons]
    cases hp : cleanRow true he a with
    | none =>
      have hsome : ((parseDate a.date).isSome = false) := by
        rw [← @cleanRow_isSome_date he a, hp]
        rfl
      simp [hsome, ih]
    | some r =>
      have hsome : ((parseDate a.date).isSome = true) := by
        rw [← @cleanRow_isSome_date he a, hp]
        rfl
      simp [hsome, ih]

theorem clean_survivor {t : RawTable} (hd : t.hasDateCol = true) {raw : RawRow}
    (hmem : raw ∈ t.rows) {y m d : Nat} (hp : parseDate raw.date = some (y, m, d)) :
    ∃ r ∈ clean t, r.date = some (formatDate y m d) ∧ r.platform = raw.platform := by
  refine ⟨⟨some (formatDate y m d), raw.platform, raw.sentiment, raw.location,
    (if t.hasEngCol then cleanEngagements raw.engagements else 0), raw.mediaType⟩,
    ?_, rfl, rfl⟩
  unfold clean
  rw [hd]
  exact List.mem_filterMap.2 ⟨raw, hmem, by simp [cleanRow, hp]⟩

theorem groupBySum_keys (key : CleanRow → String) (rows : List CleanRow) :
    ∀ kv ∈ groupBySum key rows, ∃ r ∈ rows, key r = kv.1 := by
  intro kv hkv
  unfold groupBySum at hkv
  obtain ⟨k, hk, hkv2⟩ := List.mem_map.1 hkv
  unfold groupKeys at hk
  have hk2 : k ∈ (rows.map key).dedup :=
    (List.perm_insertionSort byKeyAsc _).mem_iff.1 hk
  have hk3 : k ∈ rows.map key := List.mem_dedup.1 hk2
  obtain ⟨r, hr, hrk⟩ := List.mem_map.1 hk3
  refine ⟨r, hr, ?_⟩
  rw [← hkv2]
  exact hrk

/-! ## Helper lemmas about insight extraction -/

theorem pySplit_no_sep {sep : Char} : ∀ {a : List Char}, sep ∉ a → pySplit sep a = [a] := by
  intro a
  induction a with
  | nil => intro h; rfl
  | cons c rest ih =>
    intro h
    have hc : ¬ c = sep := by
      intro e
      exact h (e ▸ List.mem_cons_self c rest)
    have hrest : sep ∉ rest := fun hm => h (List.mem_cons_of_mem _ hm)
    simp only [pySplit, if_neg hc]
    rw [ih hrest]

theorem pySplit_append {sep : Char} :
    ∀ {a : List Char} (b : List Char), sep ∉ a →
      pySplit sep (a ++ sep :: b) = a :: pySplit sep b := by
  intro a
  induction a with
  | nil =>
    intro b h
    simp [pySplit]
  | cons c rest ih =>
    intro b h
    have hc : ¬ c = sep := by
      intro e
      exact h (e ▸ List.mem_cons_self c rest)
    have hrest : sep ∉ rest := fun hm => h (List.mem_cons_of_mem _ hm)
    simp only [List.cons_append, pySplit, if_neg hc, List.append_eq, ih b hrest]

theorem extractInsights_length_le (text : List Char) : (extractInsights text).length ≤ 3 := by
  unfold extractInsights
  apply List.length_take_le

theorem extractInsights_mem {text : List Char} {l : List Char}
    (h : l ∈ extractInsights text) :
    ∃ line ∈ pySplit '\n' text, l = pyStrip line := by
  unfold extractInsights at h
  have h2 := List.mem_of_mem_take h
  have h3 : l ∈ (pySplit '\n' text).map pyStrip := by
    split at h2
    · exact (List.mem_filter.1 h2).1
    · exact (List.mem_filter.1 h2).1
  obtain ⟨line, hline, he⟩ := List.mem_map.1 h3
  exact ⟨line, hline, he.symm⟩

theorem extractInsights_mem_ne_nil {text : List Char} {l : List Char}
    (h : l ∈ extractInsights text) : l ≠ [] := by
  unfold extractInsights at h
  have h2 := List.mem_of_mem_take h
  split at h2
  · have := (List.mem_filter.1 h2).2
    intro e
    rw [e] at this
    simp at this
  · have := (List.mem_filter.1 h2).2
    intro e
    rw [e] at this
    simp [startsWithBullet] at this

theorem extractInsights_eq_nil {text : List Char} (h : extractInsights text = []) :
    ∀ line ∈ pySplit '\n' text, pyStrip line = [] := by
  intro line hline
  unfold extractInsights at h
  rw [List.take_eq_nil_iff] at h
  rcases h with h3 | h
  · exact absurd h3 (by decide)
  · split at h
    · have hall := List.filter_eq_nil_iff.1 h
      have hmem : pyStrip line ∈ (pySplit '\n' text).map pyStrip :=
        List.mem_map.2 ⟨line, hline, rfl⟩
      have := hall _ hmem
      simpa using this
    · rename_i hbul
      rw [h] at hbul
      simp at hbul

/-- A table lacking the engagements column. -/
def exTableNoEng : RawTable :=
  { hasDateCol := false, hasEngCol := false,
    rows := [⟨.na, "T", "P", "L", .num 42, "V"⟩] }

theorem mk_ne_empty {l : List Char} (h : l ≠ []) : String.mk l ≠ "" := by
  intro e
  apply h
  have h2 : (String.mk l).data = ("" : String).data := congrArg String.data e
  simpa using h2

theorem apiErrMsg_ne_empty (status : Nat) : apiErrMsg status ≠ "" := by
  intro h
  have h2 := congrArg String.data h
  unfold apiErrMsg at h2
  rw [String.data_append] at h2
  simp only [String.data] at h2
  have h3 := congrArg List.length h2
  rw [List.length_append] at h3
  simp at h3

/-! ## Claims -/

/-- C1 (corrected).  For every row of the cleaned table the engagements
field is the integer coercion of its raw cell: missing or unparseable
values become 0, and when the engagements column is entirely absent it is
synthesized as 0 for every row.  Correction: the value is an integer but
not guaranteed non-negative, since a negative numeric upload value is
preserved. -/
theorem c1_engagements_amended :
    (∀ t : RawTable, ∀ r ∈ clean t,
      ∃ raw ∈ t.rows,
        r.engagements = if t.hasEngCol then cleanEngagements raw.engagements else 0) ∧
    cleanEngagements .na = 0 ∧
    (∀ s, cleanEngagements (.text s) = 0) ∧
    (∀ t : RawTable, t.hasEngCol = false → ∀ r ∈ clean t, r.engagements = 0) := by
  refine ⟨?_, rfl, fun s => rfl, ?_⟩
  · intro t r hr
    unfold clean at hr
    obtain ⟨raw, hmem, heq⟩ := List.mem_filterMap.1 hr
    exact ⟨raw, hmem, cleanRow_engagements heq⟩
  · intro t ht r hr
    unfold clean at hr
    obtain ⟨raw, hmem, heq⟩ := List.mem_filterMap.1 hr
    have h2 := cleanRow_engagements heq
    rw [ht] at h2
    simpa using h2

/-- C1 counterexample: the numeric upload value -5 survives cleaning as a
negative engagements value, refuting non-negativity as stated. -/
theorem c1_counterexample :
    (clean exTableNeg).map (fun r => r.engagements) = [-5] ∧ ¬ (0 : Int) ≤ -5 :=
  ⟨by decide, by decide⟩

/-- Witness for c1_engagements_amended on a table without an engagements
column. -/
theorem c1_witness :
    ((⟨none, "T", "P", "L", 0, "V"⟩ : CleanRow) ∈ clean exTableNoEng) ∧
    (⟨none, "T", "P", "L", 0, "V"⟩ : CleanRow).engagements = 0 :=
  ⟨by decide, c1_engagements_amended.2.2.2 exTableNoEng rfl _ (by decide)⟩

/-- C2 (confirmed).  With a date column present, clean keeps exactly the
rows whose date value parses, every surviving date is rendered in the
four-digit-year dashed form, surviving rows keep their platform, and every
key of the platform aggregate comes from a surviving row, so dropped rows
appear in no aggregate. -/
theorem c2_date_filtering (t : RawTable) (hd : t.hasDateCol = true) :
    (∀ r ∈ clean t, ∃ y m d, r.date = some (formatDate y m d)) ∧
    (clean t).length = t.rows.countP (fun raw => (parseDate raw.date).isSome) ∧
    (∀ raw ∈ t.rows, ∀ y m d, parseDate raw.date = some (y, m, d) →
      ∃ r ∈ clean t, r.date = some (formatDate y m d) ∧ r.platform = raw.platform) ∧
    (∀ kv ∈ engagementByPlatform (clean t), ∃ r ∈ clean t, r.platform = kv.1) := by
  refine ⟨?_, ?_, ?_, ?_⟩
  · intro r hr
    unfold clean at hr
    rw [hd] at hr
    obtain ⟨raw, hmem, heq⟩ := List.mem_filterMap.1 hr
    obtain ⟨y, m, d, hp, hdate⟩ := cleanRow_date_shape heq
    exact ⟨y, m, d, hdate⟩
  · unfold clean
    rw [hd]
    exact clean_length_date t.hasEngCol t.rows
  · intro raw hmem y m d hp
    exact clean_survivor hd hmem hp
  · exact groupBySum_keys (fun r => r.platform) (clean t)

/-- Witness for c2_date_filtering at the upload of Example 1 of the spec:
one of its two rows survives and the platform aggregate is exactly the
pair (Twitter, 10). -/
theorem c2_witness :
    ((clean exTable1).length =
      exTable1.rows.countP (fun raw => (parseDate raw.date).isSome)) ∧
    (clean exTable1).length = 1 ∧
    engagementByPlatform (clean exTable1) = [("Twitter", 10)] :=
  ⟨(c2_date_filtering exTable1 rfl).2.1, by decide, by decide⟩

/-- C3 (corrected).  Column-name normalization is not idempotent: the
media_type rename introduces a capital letter that a second pass
lower-cases.  The amended statement: normalization is idempotent on every
header already in normal form, and on the expected schema headers other
than the media-type one, while the media-type header goes to mediaType
after one pass and to mediatype after two. -/
theorem c3_normalization_amended :
    (∀ h : String, normalizeColumn h = h →
      normalizeColumn (normalizeColumn h) = normalizeColumn h) ∧
    normalizeColumn (normalizeColumn "Date") = normalizeColumn "Date" ∧
    normalizeColumn (normalizeColumn "plateform") = normalizeColumn "plateform" ∧
    normalizeColumn (normalizeColumn "Sentiment") = normalizeColumn "Sentiment" ∧
    normalizeColumn (normalizeColumn "location") = normalizeColumn "location" ∧
    normalizeColumn (normalizeColumn "engagements") = normalizeColumn "engagements" ∧
    normalizeColumn "Media Type" = "mediaType" ∧
    normalizeColumn (normalizeColumn "Media Type") = "mediatype" := by
  refine ⟨?_, by decide, by decide, by decide, by decide, by decide, by decide, by decide⟩
  intro h hfix
  rw [hfix]
  exact hfix

/-- C3 counterexample: normalizing the normalized media-type header does
not yield the same header, refuting idempotence as stated. -/
theorem c3_counterexample :
    normalizeColumn (normalizeColumn "Media Type") ≠ normalizeColumn "Media Type" := by
  decide

/-- Witness for c3_normalization_amended at the already-normal header
date. -/
theorem c3_witness :
    normalizeColumn (normalizeColumn "date") = normalizeColumn "date" :=
  c3_normalization_amended.1 "date" (by decide)

/-- C9 (confirmed).  When the upload has no date column after header
normalization, cleaning drops no rows and the cleaned rows carry no date
field. -/
theorem c9_no_date_column (t : RawTable) (hd : t.hasDateCol = false) :
    (clean t).length = t.rows.length ∧
    (∀ r ∈ clean t, r.date = none) ∧
    clean t = t.rows.map (fun raw =>
      ⟨none, raw.platform, raw.sentiment, raw.location,
        (if t.hasEngCol then cleanEngagements raw.engagements else 0), raw.mediaType⟩) := by
  have hmap : clean t = t.rows.map (fun raw =>
      (⟨none, raw.platform, raw.sentiment, raw.location,
        (if t.hasEngCol then cleanEngagements raw.engagements else 0),
        raw.mediaType⟩ : CleanRow)) := by
    unfold clean
    rw [hd]
    induction t.rows with
    | nil => rfl
    | cons a l ih =>
      rw [List.filterMap_cons, cleanRow_skip_date a, List.map_cons, ← ih]
  refine ⟨by rw [hmap, List.length_map], ?_, hmap⟩
  intro r hr
  rw [hmap] at hr
  obtain ⟨raw, hmem, he⟩ := List.mem_map.1 hr
  rw [← he]

/-- Witness for c9_no_date_column at a concrete table without a date
column. -/
theorem c9_witness : (clean exTable8).length = exTable8.rows.length :=
  (c9_no_date_column exTable8 rfl).1

/-- C10 (confirmed).  The two header renames are substring replacements on
the generically normalized name: the header My plateform becomes
my_platform, an embedded media_type becomes mediaType, and whenever the
generically normalized name contains either pattern anywhere the rename
fires, strictly shrinking the name. -/
theorem c10_substring_renames :
    normalizeColumn "My plateform" = "my_platform" ∧
    normalizeColumn "A media_type B" = "a_mediaType_b" ∧
    (∀ name : List Char,
      plateformChars <:+: pyReplace [' '] ['_'] (pyLower (pyStrip name)) →
      (normalizeCol name).length <
        (pyReplace [' '] ['_'] (pyLower (pyStrip name))).length) ∧
    (∀ name : List Char,
      mediaUnderChars <:+:
        pyReplace plateformChars platformChars
          (pyReplace [' '] ['_'] (pyLower (pyStrip name))) →
      (normalizeCol name).length <
        (pyReplace plateformChars platformChars
          (pyReplace [' '] ['_'] (pyLower (pyStrip name)))).length) := by
  refine ⟨by decide, by decide, ?_, ?_⟩
  · intro name hocc
    have h1 : (pyReplace plateformChars platformChars
        (pyReplace [' '] ['_'] (pyLower (pyStrip name)))).length <
        (pyReplace [' '] ['_'] (pyLower (pyStrip name))).length :=
      pyReplace_length_lt _ _ _ (by decide) (by decide) hocc
    have h2 : (normalizeCol name).length ≤
        (pyReplace plateformChars platformChars
          (pyReplace [' '] ['_'] (pyLower (pyStrip name)))).length := by
      unfold normalizeCol
      exact pyReplace_length_le _ _ _ (by decide)
    omega
  · intro name hocc
    unfold normalizeCol
    exact pyReplace_length_lt _ _ _ (by decide) (by decide) hocc

/-- Witness for c10_substring_renames: the plateform rename fires inside
the larger header My plateform. -/
theorem c10_witness :
    (normalizeCol "My plateform".data).length <
      (pyReplace [' '] ['_'] (pyLower (pyStrip "My plateform".data))).length :=
  c10_substring_renames.2.2.1 "My plateform".data (by decide)

/-- C8 (confirmed).  The top-locations aggregate never has more than five
entries, each entry comes from the per-location summed table, and when at
least five distinct locations exist it has exactly five entries whose
totals are at least the total of every omitted entry, the selection being
the stable descending sort of the summed table. -/
theorem c8_top_locations (rows : List CleanRow) :
    (top5Locations rows).length ≤ 5 ∧
    (∀ p ∈ top5Locations rows, p ∈ locationEngagement rows) ∧
    (5 ≤ (locationEngagement rows).length →
      (top5Locations rows).length = 5 ∧
      ∀ p ∈ top5Locations rows, ∀ q ∈ locationEngagement rows,
        q ∉ top5Locations rows → q.2 ≤ p.2) := by
  have hperm := List.perm_insertionSort byTotalDesc (locationEngagement rows)
  refine ⟨List.length_take_le 5 _, ?_, ?_⟩
  · intro p hp
    exact hperm.mem_iff.1 (List.mem_of_mem_take hp)
  · intro h5
    have hlen : (List.insertionSort byTotalDesc (locationEngagement rows)).length =
        (locationEngagement rows).length := hperm.length_eq
    constructor
    · unfold top5Locations
      rw [List.length_take, hlen]
      omega
    · intro p hp q hq hqnot
      have hsorted : List.Sorted byTotalDesc
          (List.insertionSort byTotalDesc (locationEngagement rows)) :=
        List.sorted_insertionSort byTotalDesc _
      have hsorted2 : List.Pairwise byTotalDesc
          ((List.insertionSort byTotalDesc (locationEngagement rows)).take 5 ++
            (List.insertionSort byTotalDesc (locationEngagement rows)).drop 5) := by
        rw [List.take_append_drop]
        exact hsorted
      have hq2 : q ∈ List.insertionSort byTotalDesc (locationEngagement rows) :=
        hperm.mem_iff.2 hq
      have hq3 : q ∈ (List.insertionSort byTotalDesc (locationEngagement rows)).take 5 ++
          (List.insertionSort byTotalDesc (locationEngagement rows)).drop 5 := by
        rw [List.take_append_drop]
        exact hq2
      have hqdrop : q ∈ (List.insertionSort byTotalDesc (locationEngagement rows)).drop 5 := by
        rcases List.mem_append.1 hq3 with h | h
        · exact absurd h hqnot
        · exact h
      exact (List.pairwise_append.1 hsorted2).2.2 p hp q hqdrop

/-- Witness for c8_top_locations at a table with six distinct locations. -/
theorem c8_witness :
    5 ≤ (locationEngagement (clean exTable8)).length ∧
    (top5Locations (clean exTable8)).length = 5 :=
  ⟨by decide, ((c8_top_locations (clean exTable8)).2.2 (by decide)).1⟩

/-- C7 (confirmed).  With no credential configured the requester returns,
for every outcome of the environment, the single missing-key message and
never reaches the requests.post call. -/
theorem c7_missing_credential :
    (∀ outcome, generate_insights_from_gemini "" outcome = (false, [keyMissingMsg])) ∧
    [keyMissingMsg].length = 1 ∧
    "Gemini API Key is missing".data <:+: keyMissingMsg.data := by
  refine ⟨fun outcome => rfl, rfl, by decide⟩

/-- C5 (corrected).  On every non-success status the requester returns
explanatory strings naming the failure class: status 401 yields two
strings identifying an authorization failure, and any other non-success
status yields one generic string carrying the status code.  Correction:
the 401 path returns two strings, not a single one. -/
theorem c5_status_amended (key : String) (status : Nat) (body : BodyParse)
    (hk : key ≠ "") (hbad : respOk status = false) :
    ((generate_insights_from_gemini key (.httpResponse status body)).2 =
      if status = 401 then [authErrMsg1, authErrMsg2] else [apiErrMsg status]) ∧
    "Authorization error".data <:+: authErrMsg1.data ∧
    "API returned an error".data <:+: (apiErrMsg status).data := by
  refine ⟨?_, by decide, ?_⟩
  · unfold generate_insights_from_gemini
    rw [if_neg hk]
    simp only [hbad]
    rfl
  · unfold apiErrMsg
    have h1 : "API returned an error".data <:+:
        ("Failed to generate insights: API returned an error (" : String).data := by
      decide
    have h2 : ("Failed to generate insights: API returned an error (" : String).data <+:
        ("Failed to generate insights: API returned an error (" ++
          (toString status ++ ").")).data := by
      rw [String.data_append]
      exact ⟨_, rfl⟩
    have h3 := List.IsPrefix.isInfix h2
    exact h1.trans h3

/-- C5 counterexample: status 401 yields two strings, refuting the single
string stated by the claim. -/
theorem c5_counterexample :
    (generate_insights_from_gemini "k" (.httpResponse 401 (.parsed none))).2 =
      [authErrMsg1, authErrMsg2] ∧
    (generate_insights_from_gemini "k" (.httpResponse 401 (.parsed none))).2.length ≠ 1 :=
  ⟨by decide, by decide⟩

/-- Witness for c5_status_amended at status 404. -/
theorem c5_witness :
    (generate_insights_from_gemini "k" (.httpResponse 404 (.parsed none))).2 =
      if 404 = 401 then [authErrMsg1, authErrMsg2] else [apiErrMsg 404] :=
  (c5_status_amended "k" 404 (.parsed none) (by decide) (by decide)).1

/-- C4 (corrected).  For every input the requester returns at most three
strings, each of them non-empty, and every failure path yields at least
one string; however the result can be empty on the success path, exactly
when the extracted candidate text has no non-empty line.  Correction: the
result is not guaranteed non-empty on success. -/
theorem c4_insights_amended (apiKey : String) (outcome : ApiOutcome) :
    (generate_insights_from_gemini apiKey outcome).2.length ≤ 3 ∧
    (∀ s ∈ (generate_insights_from_gemini apiKey outcome).2, s ≠ "") ∧
    ((generate_insights_from_gemini apiKey outcome).2 = [] →
      ∃ status body text, outcome = ApiOutcome.httpResponse status body ∧
        respOk status = true ∧ firstCandidateText body = some text ∧
        extractInsights text.data = []) := by
  unfold generate_insights_from_gemini
  by_cases hk : apiKey = ""
  · rw [if_pos hk]
    refine ⟨by decide, by decide, ?_⟩
    intro h
    simp at h
  · rw [if_neg hk]
    cases outcome with
    | transportError =>
      refine ⟨by decide, by decide, ?_⟩
      intro h
      simp at h
    | unexpectedError =>
      refine ⟨by decide, by decide, ?_⟩
      intro h
      simp at h
    | httpResponse status body =>
      by_cases hok : respOk status = true
      · simp only []
        rw [if_pos hok]
        cases body with
        | parseError =>
          refine ⟨by decide, by decide, ?_⟩
          intro h
          simp at h
        | parsed cands =>
          cases hft : firstCandidateText (.parsed cands) with
          | none =>
            simp only [hft]
            refine ⟨by decide, by decide, ?_⟩
            intro h
            simp at h
          | some text =>
            simp only [hft]
            refine ⟨?_, ?_, ?_⟩
            · rw [List.length_map]
              exact extractInsights_length_le text.data
            · intro s hs
              obtain ⟨l, hl, he⟩ := List.mem_map.1 hs
              rw [← he]
              exact mk_ne_empty (extractInsights_mem_ne_nil hl)
            · intro h
              exact ⟨status, .parsed cands, text, rfl, hok, hft,
                List.map_eq_nil_iff.1 h⟩
      · simp only []
        rw [if_neg hok]
        by_cases h401 : status = 401
        · rw [if_pos h401]
          refine ⟨by decide, by decide, ?_⟩
          intro h
          simp at h
        · rw [if_neg h401]
          refine ⟨by simp, ?_, ?_⟩
          · intro s hs
            have he : s = apiErrMsg status := by simpa using hs
            rw [he]
            exact apiErrMsg_ne_empty status
          · intro h
            simp at h

/-- C4 counterexample: a success response whose extracted text is empty
yields an empty insight list, refuting the guarantee of at least one
string. -/
theorem c4_counterexample :
    (generate_insights_from_gemini "k" (successOutcome 200 "")).2 = [] ∧
    ¬ 1 ≤ (generate_insights_from_gemini "k" (successOutcome 200 "")).2.length :=
  ⟨by decide, by decide⟩

/-- Witness for c4_insights_amended at a transport failure. -/
theorem c4_witness :
    (generate_insights_from_gemini "k" ApiOutcome.transportError).2.length ≤ 3 :=
  (c4_insights_amended "k" ApiOutcome.transportError).1

/-- C6 (corrected).  When the extracted text is three bulleted lines the
requester returns exactly those three lines whitespace-trimmed with their
bullet markers retained, in original order; in general the extraction
keeps at most three entries, each a trimmed line of the text, and falls
back to all non-empty trimmed lines when no line begins with a bullet
marker.  Correction: the bullet markers are not stripped, only the
surrounding whitespace is. -/
theorem c6_extraction_amended :
    (∀ l1 l2 l3 : List Char, '\n' ∉ l1 → '\n' ∉ l2 → '\n' ∉ l3 →
      startsWithBullet (pyStrip l1) = true → startsWithBullet (pyStrip l2) = true →
      startsWithBullet (pyStrip l3) = true →
      extractInsights (l1 ++ '\n' :: (l2 ++ '\n' :: l3)) =
        [pyStrip l1, pyStrip l2, pyStrip l3]) ∧
    (∀ text : List Char, (extractInsights text).length ≤ 3) ∧
    (∀ text l, l ∈ extractInsights text → ∃ line ∈ pySplit '\n' text, l = pyStrip line) ∧
    (∀ text : List Char,
      ((pySplit '\n' text).map pyStrip).filter startsWithBullet = [] →
      extractInsights text =
        (((pySplit '\n' text).map pyStrip).filter (fun l => !l.isEmpty)).take 3) := by
  refine ⟨?_, extractInsights_length_le, fun text l h => extractInsights_mem h, ?_⟩
  · intro l1 l2 l3 hn1 hn2 hn3 hb1 hb2 hb3
    unfold extractInsights
    rw [pySplit_append _ hn1, pySplit_append _ hn2, pySplit_no_sep hn3]
    simp [hb1, hb2, hb3]
  · intro text hnob
    unfold extractInsights
    simp only [hnob]
    simp

/-- C6 counterexample: a three-line bulleted response comes back with the
bullet markers kept, not stripped. -/
theorem c6_counterexample :
    (generate_insights_from_gemini "k" (successOutcome 200 "- a\n- b\n- c")).2 =
      ["- a", "- b", "- c"] ∧
    (generate_insights_from_gemini "k" (successOutcome 200 "- a\n- b\n- c")).2 ≠
      ["a", "b", "c"] :=
  ⟨by decide, by decide⟩

/-- Witness for c6_extraction_amended at three concrete bulleted lines
using the three recognized markers. -/
theorem c6_witness :
    extractInsights ("- a".data ++ '\n' :: ("* b".data ++ '\n' :: "• c".data)) =
      [pyStrip "- a".data, pyStrip "* b".data, pyStrip "• c".data] :=
  c6_extraction_amended.1 "- a".data "* b".data "• c".data (by decide) (by decide)
    (by decide) (by decide) (by decide) (by decide)
